import Mathlib

/- Formal model of the core of the sl-beefy-v2 front-end: the injected backend
wallet (the RPC method dispatcher of the two createInjectedBackendWallet
variants) and the payload-generation pipeline of GeneratePayloadPage.tsx,
together with theorems about selection, polling, dispatch and error behavior.

Conventions of the embedding:
* JS strings and JSON values are modeled as Lean String; BigNumber decimal
  values are modeled as Rat (a decimal string parses to an exact rational).
* The asynchronous external collaborators (the JSON-RPC node, the aggregator
  quoting API, the store dispatch) are modeled as function-valued parameters;
  each handler additionally returns the list of external calls it performs, so
  that statements such as "no aggregator call is made" or "the failure is not
  retried" are statements about that call trace.
* The store state evolves between readiness-poll attempts, so the poll probes
  are modeled by a time-indexed field pollOptions, while the fetches inside
  the generate functions see the collaborator as of generation time.
-/

namespace SLBeefy

/-- Hex encoding used by ethers.toBeHex for the chain id (0x-prefixed,
without the even-length padding of ethers, which no theorem depends on). -/
def toBeHex (n : Nat) : String :=
  "0x" ++ (Nat.toDigits 16 n).asString

/-- Behavior of the remote JSON-RPC node, one field per ethers provider
method used by the injected wallet request handlers. -/
structure Node where
  chainId : Nat
  sendTransactionHash : String → String
  estimateGasResult : String → Nat
  balanceOf : String → Nat
  callResult : String → String
  receiptFor : String → Option String
  gasPrice : Option Nat
  sendGeneric : String → List String → String

/-- One interaction with the node performed while serving a single request. -/
inductive NodeCall where
  | sendTransaction (tx : String)
  | estimateGas (tx : String)
  | callNode (tx : String)
  | getBalance (a : String)
  | getTransactionReceipt (h : String)
  | getFeeData
  | sendGeneric (method : String) (params : List String)
deriving DecidableEq, Repr

/-- JSON values returned by the injected provider request handler. -/
inductive RpcResult where
  | arr (xs : List String)
  | str (s : String)
  | nullValue
deriving DecidableEq, Repr

/-- Request handler of the read-only createInjectedBackendWallet variant
(built from a bare walletAddress; eth_sendTransaction throws before touching
the node). chainId was fetched once from the node at interface construction
and is captured here as a plain argument. Returns the result or error
together with the node interactions performed for this request. -/
def requestReadOnly (walletAddress : String) (chainId : Nat) (node : Node)
    (method : String) (params : List String) :
    Except String RpcResult × List NodeCall :=
  match method with
  | "eth_requestAccounts" => (Except.ok (RpcResult.arr [walletAddress]), [])
  | "eth_accounts" => (Except.ok (RpcResult.arr [walletAddress]), [])
  | "eth_chainId" => (Except.ok (RpcResult.str (toBeHex chainId)), [])
  | "eth_sendTransaction" =>
      (Except.error "No signing available in data-only mode", [])
  | "eth_estimateGas" =>
      let tx := params.headD ""
      (Except.ok (RpcResult.str (toString (node.estimateGasResult tx))),
       [NodeCall.estimateGas tx])
  | "eth_call" =>
      let tx := params.headD ""
      (Except.ok (RpcResult.str (node.callResult tx)), [NodeCall.callNode tx])
  | "eth_getBalance" =>
      let a := params.headD ""
      (Except.ok (RpcResult.str (toString (node.balanceOf a))),
       [NodeCall.getBalance a])
  | "eth_getTransactionReceipt" =>
      let h := params.headD ""
      (Except.ok (match node.receiptFor h with
        | some r => RpcResult.str r
        | none => RpcResult.nullValue),
       [NodeCall.getTransactionReceipt h])
  | "eth_gasPrice" =>
      (Except.ok (match node.gasPrice with
        | some g => RpcResult.str (toString g)
        | none => RpcResult.nullValue),
       [NodeCall.getFeeData])
  | m => (Except.ok (RpcResult.str (node.sendGeneric m params)),
          [NodeCall.sendGeneric m params])

/-- Request handler of the signing createInjectedBackendWallet variant (built
from a private key; walletAddress is the address ethers derives from that
key). eth_sendTransaction signs and broadcasts through the node and returns
the transaction hash. -/
def requestSigning (walletAddress : String) (chainId : Nat) (node : Node)
    (method : String) (params : List String) :
    Except String RpcResult × List NodeCall :=
  match method with
  | "eth_requestAccounts" => (Except.ok (RpcResult.arr [walletAddress]), [])
  | "eth_accounts" => (Except.ok (RpcResult.arr [walletAddress]), [])
  | "eth_chainId" => (Except.ok (RpcResult.str (toBeHex chainId)), [])
  | "eth_sendTransaction" =>
      let tx := params.headD ""
      (Except.ok (RpcResult.str (node.sendTransactionHash tx)),
       [NodeCall.sendTransaction tx])
  | "eth_estimateGas" =>
      let tx := params.headD ""
      (Except.ok (RpcResult.str (toString (node.estimateGasResult tx))),
       [NodeCall.estimateGas tx])
  | "eth_call" =>
      let tx := params.headD ""
      (Except.ok (RpcResult.str (node.callResult tx)), [NodeCall.callNode tx])
  | "eth_getBalance" =>
      let a := params.headD ""
      (Except.ok (RpcResult.str (toString (node.balanceOf a))),
       [NodeCall.getBalance a])
  | "eth_getTransactionReceipt" =>
      let h := params.headD ""
      (Except.ok (match node.receiptFor h with
        | some r => RpcResult.str r
        | none => RpcResult.nullValue),
       [NodeCall.getTransactionReceipt h])
  | "eth_gasPrice" =>
      (Except.ok (match node.gasPrice with
        | some g => RpcResult.str (toString g)
        | none => RpcResult.nullValue),
       [NodeCall.getFeeData])
  | m => (Except.ok (RpcResult.str (node.sendGeneric m params)),
          [NodeCall.sendGeneric m params])

/-- Readiness poll loop (GeneratePayloadPage step 4 and the App.tsx
initializeAndGeneratePayload loop share this structure): lastCount is the
count most recently observed (0 before any probe, as in the App.tsx
optionsCount variable), i the number of probe invocations made so far,
and the last argument the number of attempts remaining. -/
def pollAux (probe : Nat → Nat) (minimum : Nat) :
    Nat → Nat → Nat → Nat × Nat
  | lastCount, i, 0 => (lastCount, i)
  | _, i, r + 1 =>
    let c := probe i
    if minimum ≤ c then (c, i + 1) else pollAux probe minimum c (i + 1) r

/-- Readiness Poller: repeatedly invoke probe, stopping on the first count
reaching minimum or after maxAttempts attempts; returns the final count and
the number of probe invocations performed. The one-second sleep between
attempts is real time and is not part of the model. -/
def poll (probe : Nat → Nat) (minimum maxAttempts : Nat) : Nat × Nat :=
  pollAux probe minimum 0 0 maxAttempts

/-- A token as used by the pipeline: only its id is ever inspected. -/
structure Token where
  id : String
deriving DecidableEq, Repr

/-- A transact option as used by the pipeline: the ordered input tokens
(deposit side) and wanted output tokens (withdraw side). -/
structure TransactOption where
  inputs : List Token
  wantedOutputs : List Token
deriving DecidableEq, Repr

/-- Amount specification sent to the quote fetches. token is Option Token
because the source reads option.inputs[0] without a guard, which in JS
yields undefined (not an error) when inputs is empty. -/
structure AmountSpec where
  token : Option Token
  amount : Rat
  max : Bool
deriving DecidableEq, Repr

/-- A quote is opaque to this core beyond being passed forward. -/
structure Quote where
  id : Nat
deriving DecidableEq, Repr

/-- A dispatchable action is opaque to this core. -/
structure DispatchableAction where
  id : Nat
deriving DecidableEq, Repr

/-- An execution step as returned by the step fetches. -/
structure Step where
  action : DispatchableAction
deriving DecidableEq, Repr

/-- The value the store dispatch resolves a step action to: the transaction
payload fields read by the page. -/
structure TxPayload where
  toAddr : String
  data : String
  value : String
deriving DecidableEq, Repr

/-- The jsonResult object assembled on success:
from userWallet plus the to, data and value fields of the dispatch result. -/
structure AggPayload where
  fromAddr : Option String
  toAddr : String
  data : String
  value : String
deriving DecidableEq, Repr

/-- The externally observable finalOutput of one pipeline run. -/
structure PipelineResult where
  ready : Bool
  error : Option String
  aggregatorPayload : Option AggPayload
deriving DecidableEq, Repr

/-- The amount URL parameter: either the literal string all, or a decimal
string parsing to the given rational. Non-numeric garbage (BigNumber NaN) is
outside the model; every claim concerns numeric amounts or the literal. -/
inductive RawAmount where
  | all
  | num (q : Rat)
deriving DecidableEq, Repr

/-- The parsed URL parameters of GeneratePayloadPage. -/
structure Request where
  vaultId : Option String
  type : Option String
  amount : Option RawAmount
  wallet : Option String
deriving DecidableEq, Repr

/-- One aggregator (or store dispatch) interaction performed by a run. -/
inductive AggCall where
  | depositOptions (vaultId : String)
  | withdrawOptions (vaultId : String)
  | depositQuotes (opts : List TransactOption) (specs : List AmountSpec)
  | withdrawQuotes (opts : List TransactOption) (specs : List AmountSpec)
  | depositStep (q : Quote)
  | withdrawStep (q : Quote)
  | dispatchAction (a : DispatchableAction)
deriving DecidableEq, Repr

/-- The external collaborators of one pipeline run. pollOptions i v is the
deposit option list the aggregator reports for vault v at poll attempt i
(the store state evolves between attempts); the remaining fields are the
collaborator as seen by the generate functions at generation time. -/
structure Env where
  pollOptions : Nat → String → List TransactOption
  fetchDepositOptionsFor : String → List TransactOption
  fetchWithdrawOptionsFor : String → List TransactOption
  fetchDepositQuotesFor : List TransactOption → List AmountSpec → List Quote
  fetchWithdrawQuotesFor : List TransactOption → List AmountSpec → List Quote
  fetchDepositStep : Quote → Step
  fetchWithdrawStep : Quote → Step
  dispatch : DispatchableAction → TxPayload

/-- Deposit option predicate of the source, options.find with
o.inputs[0].id === USDC: there is no optional chaining on inputs[0], so an
option with no input tokens makes the predicate evaluation throw a JS
TypeError, modeled as the error case. -/
def findFirstInputUSDC : List TransactOption →
    Except String (Option TransactOption)
  | [] => Except.ok none
  | o :: os =>
    match o.inputs with
    | [] => Except.error "Cannot read properties of undefined (reading id)"
    | t :: _ =>
      if t.id = "USDC" then Except.ok (some o) else findFirstInputUSDC os

/-- Deposit selection: options.find(o => o.inputs[0].id === USDC) ?? options[0]. -/
def depositSelectedOption (options : List TransactOption) :
    Except String (Option TransactOption) :=
  (findFirstInputUSDC options).map (fun found => found <|> options.head?)

/-- Withdraw option predicate of the source,
o.wantedOutputs[0]?.id === USDC: optional chaining makes an option without
wanted outputs simply not match. -/
def firstWantedOutputIsUSDC (o : TransactOption) : Bool :=
  (o.wantedOutputs.head?.map Token.id) == some "USDC"

/-- Withdraw selection:
options.find(o => o.wantedOutputs[0]?.id === USDC) ?? options[0]. -/
def withdrawSelectedOption (options : List TransactOption) :
    Option TransactOption :=
  (options.find? firstWantedOutputIsUSDC) <|> options.head?

/-- Modeled from the spec (section 4.4), for comparison with the deposit
selection of the source: prefer the first option whose first input token is
the preferred token, fall back to the first option in supplied order. -/
def firstInputIsUSDC (o : TransactOption) : Bool :=
  (o.inputs.head?.map Token.id) == some "USDC"

/-- Modeled from the spec (section 4.4): the deposit selection policy as the
spec words it, total on every option list. -/
def selectDepositOptionSpec (options : List TransactOption) :
    Option TransactOption :=
  (options.find? firstInputIsUSDC) <|> options.head?

/-- generateDepositPayload of GeneratePayloadPage.tsx. Returns the result
(the dispatch value, or the thrown error message) and the trace of
aggregator and dispatch calls made. -/
def generateDepositPayload (env : Env) (vaultId : String)
    (inputAmount : Rat) : Except String TxPayload × List AggCall :=
  let options := env.fetchDepositOptionsFor vaultId
  let tr0 := [AggCall.depositOptions vaultId]
  if options.isEmpty then
    (Except.error "No deposit options available", tr0)
  else
    match depositSelectedOption options with
    | Except.error e => (Except.error e, tr0)
    | Except.ok none => (Except.error "No deposit option found", tr0)
    | Except.ok (some option) =>
      let inputToken := option.inputs.head?
      let specs := [AmountSpec.mk inputToken inputAmount false]
      let quotes := env.fetchDepositQuotesFor [option] specs
      let tr1 := tr0 ++ [AggCall.depositQuotes [option] specs]
      match quotes with
      | [] => (Except.error "No deposit quotes found", tr1)
      | quote :: _ =>
        let step := env.fetchDepositStep quote
        let result := env.dispatch step.action
        (Except.ok result,
         tr1 ++ [AggCall.depositStep quote, AggCall.dispatchAction step.action])

/-- The single inputAmounts entry built by generateWithdrawPayload:
isFull mirrors new BigNumber(withdrawAmount).lte(0), the token is
option.inputs[0] (undefined when inputs is empty), and the amount is the
placeholder 0.000001 when full, because the aggregator rejects zero. -/
def withdrawAmountSpecOf (option : TransactOption) (withdrawAmount : Rat) :
    AmountSpec :=
  let isFull := decide (withdrawAmount ≤ 0)
  AmountSpec.mk option.inputs.head?
    (if isFull then (1 : Rat) / 1000000 else withdrawAmount) isFull

/-- generateWithdrawPayload of GeneratePayloadPage.tsx. -/
def generateWithdrawPayload (env : Env) (vaultId : String)
    (withdrawAmount : Rat) : Except String TxPayload × List AggCall :=
  let options := env.fetchWithdrawOptionsFor vaultId
  let tr0 := [AggCall.withdrawOptions vaultId]
  if options.isEmpty then
    (Except.error "No withdraw options available", tr0)
  else
    match withdrawSelectedOption options with
    | none => (Except.error "No withdraw option found", tr0)
    | some option =>
      let specs := [withdrawAmountSpecOf option withdrawAmount]
      let quotes := env.fetchWithdrawQuotesFor [option] specs
      let tr1 := tr0 ++ [AggCall.withdrawQuotes [option] specs]
      match quotes with
      | [] => (Except.error "No withdraw quotes found", tr1)
      | quote :: _ =>
        let step := env.fetchWithdrawStep quote
        let result := env.dispatch step.action
        (Except.ok result,
         tr1 ++ [AggCall.withdrawStep quote, AggCall.dispatchAction step.action])

/-- generateWithdrawAllPayload: delegates with the literal amount -1, which
the aggregator interprets as max because it is ≤ 0. -/
def generateWithdrawAllPayload (env : Env) (vaultId : String) :
    Except String TxPayload × List AggCall :=
  generateWithdrawPayload env vaultId (-1)

/-- JS truthiness of a nullable string URL parameter, as used by the
checks !vaultId, !type and !userWallet. -/
def jsTruthy : Option String → Bool
  | none => false
  | some s => !(s == "")

/-- The deposit amount: rawAmount === all ? 1 : rawAmount (the source has no
aggregator concept of depositAll and substitutes the literal 1). -/
def depositAmountOf : RawAmount → Rat
  | RawAmount.all => 1
  | RawAmount.num q => q

/-- The body of the main function of GeneratePayloadPage (the try block):
parse and validate the URL parameters, run the readiness poll (its outcome
is not inspected afterwards), then run the deposit or withdraw generation.
initAppData and the optional wallet re-injection are external side effects
with no aggregator interaction and are not part of the model. Returns the
jsonResult or the thrown error message, with the aggregator call trace. -/
def runMain (env : Env) (req : Request) :
    Except String AggPayload × List AggCall :=
  if !(jsTruthy req.vaultId) || !(jsTruthy req.type) then
    (Except.error "Missing vaultId or type=? (deposit/withdraw)", [])
  else
    let vaultId := req.vaultId.getD ""
    let type := req.type.getD ""
    if type != "deposit" && type != "withdraw" then
      (Except.error "Type must be deposit or withdraw", [])
    else
      let rawAmount := req.amount.getD RawAmount.all
      let pollResult := poll (fun i => (env.pollOptions i vaultId).length) 2 5
      let pollTrace :=
        List.replicate pollResult.2 (AggCall.depositOptions vaultId)
      let generated :=
        if type == "deposit" then
          generateDepositPayload env vaultId (depositAmountOf rawAmount)
        else
          match rawAmount with
          | RawAmount.all => generateWithdrawAllPayload env vaultId
          | RawAmount.num q => generateWithdrawPayload env vaultId q
      (generated.1.map (fun r =>
        AggPayload.mk req.wallet r.toAddr r.data r.value),
       pollTrace ++ generated.2)

/-- The terminal finalOutput of one run: the catch handler folds a thrown
message into error, and ready is set to true on both paths. -/
def mainRun (env : Env) (req : Request) : PipelineResult × List AggCall :=
  let r := runMain env req
  (match r.1 with
   | Except.ok p =>
     { ready := true, error := none, aggregatorPayload := some p }
   | Except.error m =>
     { ready := true, error := some m, aggregatorPayload := none },
   r.2)


deriving instance DecidableEq for Except

/-- Concrete tokens and options used to instantiate theorems with
hypotheses at explicit inputs. -/
def usdc : Token := Token.mk "USDC"

def dai : Token := Token.mk "DAI"

def optU : TransactOption := TransactOption.mk [usdc] [usdc]

def optD : TransactOption := TransactOption.mk [dai] [dai]

def optE : TransactOption := TransactOption.mk [] []

/-- A well-behaved collaborator environment. -/
def envOk : Env where
  pollOptions := fun _ _ => [optU, optD]
  fetchDepositOptionsFor := fun _ => [optD, optU]
  fetchWithdrawOptionsFor := fun _ => [optD, optU]
  fetchDepositQuotesFor := fun _ _ => [Quote.mk 1]
  fetchWithdrawQuotesFor := fun _ _ => [Quote.mk 2]
  fetchDepositStep := fun _ => Step.mk (DispatchableAction.mk 10)
  fetchWithdrawStep := fun _ => Step.mk (DispatchableAction.mk 11)
  dispatch := fun _ => TxPayload.mk "0xabc" "0xdef" "0"

/-- Like envOk but the single deposit option carries no input tokens. -/
def envBadInputs : Env :=
  { envOk with fetchDepositOptionsFor := fun _ => [optE] }

/-- Like envOk but the dispatch resolves to a payload with empty fields. -/
def envBadDispatch : Env :=
  { envOk with dispatch := fun _ => TxPayload.mk "" "" "0" }

/-- Like envOk but the aggregator reports no options for any vault. -/
def envNoOptions : Env :=
  { envOk with
    fetchDepositOptionsFor := fun _ => []
    fetchWithdrawOptionsFor := fun _ => [] }

/-- Like envOk but every quote fetch comes back empty. -/
def envNoQuotes : Env :=
  { envOk with
    fetchDepositQuotesFor := fun _ _ => []
    fetchWithdrawQuotesFor := fun _ _ => [] }

/-- A deposit request for vault v with default amount. -/
def reqDep : Request := Request.mk (some "v") (some "deposit") none none

/-- A withdraw-all request for vault v. -/
def reqWAll : Request :=
  Request.mk (some "v") (some "withdraw") (some RawAmount.all) none

/-- A request with an unrecognized type parameter. -/
def reqBadType : Request := Request.mk (some "v") (some "redeem") none none

/-- A request with no vaultId parameter. -/
def reqNoVault : Request := Request.mk none (some "deposit") none none


/-- If attempt k (zero-based) is the first probe reaching the minimum and
lies within the remaining budget, the loop stops there: the final count is
the count probed at k and exactly i + k + 1 invocations have been made. -/
theorem pollAux_first_success (probe : Nat → Nat) (minimum : Nat) :
    ∀ (r lastCount i k : Nat), k < r → minimum ≤ probe (i + k) →
      (∀ j, j < k → probe (i + j) < minimum) →
      pollAux probe minimum lastCount i r = (probe (i + k), i + k + 1) := by
  intro r
  induction r with
  | zero => intro _ _ k hk; omega
  | succ r ih =>
    intro lastCount i k hk hsucc hbefore
    cases k with
    | zero =>
      simp only [Nat.add_zero] at hsucc ⊢
      simp [pollAux, hsucc]
    | succ k =>
      have h0 : probe (i + 0) < minimum := hbefore 0 (Nat.succ_pos k)
      simp only [Nat.add_zero] at h0
      have hcond : ¬ minimum ≤ probe i := Nat.not_le.mpr h0
      simp only [pollAux, if_neg hcond]
      have e1 : i + 1 + k = i + (k + 1) := by omega
      have := ih (probe i) (i + 1) k (by omega)
        (by rw [e1]; exact hsucc)
        (fun j hj => by
          have e2 : i + 1 + j = i + (j + 1) := by omega
          rw [e2]
          exact hbefore (j + 1) (by omega))
      rw [this, e1]

/-- If no probe within the remaining budget reaches the minimum, the loop
runs the full budget. -/
theorem pollAux_exhausts (probe : Nat → Nat) (minimum : Nat) :
    ∀ (r lastCount i : Nat), (∀ k, k < r → probe (i + k) < minimum) →
      (pollAux probe minimum lastCount i r).2 = i + r := by
  intro r
  induction r with
  | zero => intro lastCount i _; simp [pollAux]
  | succ r ih =>
    intro lastCount i hall
    have h0 : probe i < minimum := by simpa using hall 0 (Nat.succ_pos r)
    have hcond : ¬ minimum ≤ probe i := Nat.not_le.mpr h0
    simp only [pollAux, if_neg hcond]
    have := ih (probe i) (i + 1) (fun k hk => by
      have := hall (k + 1) (by omega)
      simpa [Nat.add_assoc, Nat.add_comm, Nat.add_left_comm] using this)
    omega

/-- List.find? returns the first element satisfying the predicate: the list
splits into a prefix of failures, the witness, and a remainder. -/
theorem find_eq_some_split {α : Type} (p : α → Bool) :
    ∀ (xs : List α) (x : α), xs.find? p = some x →
      ∃ pre post, xs = pre ++ x :: post
        ∧ (∀ y ∈ pre, p y = false) ∧ p x = true := by
  intro xs
  induction xs with
  | nil => intro x h; simp [List.find?] at h
  | cons y ys ih =>
    intro x h
    by_cases hp : p y
    · simp [List.find?, hp] at h
      subst h
      exact ⟨[], ys, rfl, by simp, hp⟩
    · simp [List.find?, Bool.of_not_eq_true hp] at h
      obtain ⟨pre, post, hsplit, hpre, hx⟩ := ih x h
      exact ⟨y :: pre, post, by simp [hsplit],
        by simpa [Bool.of_not_eq_true hp] using hpre, hx⟩

/-- The selection pattern find-first ?? head: on a non-empty list it always
selects something, and the selected element is either the first match (with
every earlier element failing the predicate) or, when nothing matches, the
first element of the list. -/
theorem select_first_or_head {α : Type} (p : α → Bool) (xs : List α)
    (hne : xs ≠ []) :
    ∃ x, ((xs.find? p) <|> xs.head?) = some x
      ∧ ((p x = true ∧ ∃ pre post, xs = pre ++ x :: post
            ∧ ∀ y ∈ pre, p y = false)
         ∨ ((∀ y ∈ xs, p y = false) ∧ xs.head? = some x)) := by
  cases hf : xs.find? p with
  | some x =>
    refine ⟨x, by simp [hf], Or.inl ?_⟩
    obtain ⟨pre, post, hsplit, hpre, hx⟩ := find_eq_some_split p xs x hf
    exact ⟨hx, pre, post, hsplit, hpre⟩
  | none =>
    cases xs with
    | nil => exact absurd rfl hne
    | cons y ys =>
      refine ⟨y, by simp, Or.inr ⟨?_, rfl⟩⟩
      intro z hz
      exact Bool.of_not_eq_true (List.find?_eq_none.mp hf z hz)


/-- The generate functions never read the poll-time field of the
environment. -/
theorem generateDepositPayload_pollOptions_irrel (env : Env)
    (p : Nat → String → List TransactOption) (v : String) (a : Rat) :
    generateDepositPayload { env with pollOptions := p } v a
      = generateDepositPayload env v a := rfl

/-- Withdraw generation also never reads the poll-time field. -/
theorem generateWithdrawPayload_pollOptions_irrel (env : Env)
    (p : Nat → String → List TransactOption) (v : String) (a : Rat) :
    generateWithdrawPayload { env with pollOptions := p } v a
      = generateWithdrawPayload env v a := rfl

/-- Delegating generation for withdraw-all also ignores the poll-time
field. -/
theorem generateWithdrawAllPayload_pollOptions_irrel (env : Env)
    (p : Nat → String → List TransactOption) (v : String) :
    generateWithdrawAllPayload { env with pollOptions := p } v
      = generateWithdrawAllPayload env v := rfl

/-- The run result (first component) does not depend on the poll-time
responses at all: the poll outcome is never inspected after the loop. -/
theorem runMain_fst_pollOptions_irrel (env : Env)
    (p : Nat → String → List TransactOption) (req : Request) :
    (runMain { env with pollOptions := p } req).1 = (runMain env req).1 := by
  simp only [runMain]
  by_cases h1 : (!(jsTruthy req.vaultId) || !(jsTruthy req.type)) = true
  · rw [if_pos h1, if_pos h1]
  · rw [if_neg h1, if_neg h1]
    by_cases h2 : ((req.type.getD "" != "deposit")
        && (req.type.getD "" != "withdraw")) = true
    · rw [if_pos h2, if_pos h2]
    · rw [if_neg h2, if_neg h2]
      by_cases h3 : (req.type.getD "" == "deposit") = true
      · rw [if_pos h3, if_pos h3]
        simp [generateDepositPayload_pollOptions_irrel]
      · rw [if_neg h3, if_neg h3]
        cases hra : req.amount.getD RawAmount.all <;>
          simp [generateWithdrawAllPayload_pollOptions_irrel,
            generateWithdrawPayload_pollOptions_irrel]

/-- Branch lemma: a request with truthy vaultId and type deposit reaches the
deposit generation, with the readiness poll contributing only probe calls to
the trace. -/
theorem runMain_deposit (env : Env) (req : Request) (vaultId : String)
    (hv : req.vaultId = some vaultId) (hne : vaultId ≠ "")
    (ht : req.type = some "deposit") :
    runMain env req =
      ((generateDepositPayload env vaultId
          (depositAmountOf (req.amount.getD RawAmount.all))).1.map
        (fun r => AggPayload.mk req.wallet r.toAddr r.data r.value),
       List.replicate
           (poll (fun i => (env.pollOptions i vaultId).length) 2 5).2
           (AggCall.depositOptions vaultId)
         ++ (generateDepositPayload env vaultId
              (depositAmountOf (req.amount.getD RawAmount.all))).2) := by
  have hb : (vaultId == "") = false := by
    simpa using hne
  simp [runMain, hv, ht, jsTruthy, hb]

/-- Branch lemma: a withdraw request whose amount parameter defaults or
parses to the literal all reaches generateWithdrawAllPayload. -/
theorem runMain_withdraw_all (env : Env) (req : Request) (vaultId : String)
    (hv : req.vaultId = some vaultId) (hne : vaultId ≠ "")
    (ht : req.type = some "withdraw")
    (ha : req.amount.getD RawAmount.all = RawAmount.all) :
    runMain env req =
      ((generateWithdrawAllPayload env vaultId).1.map
        (fun r => AggPayload.mk req.wallet r.toAddr r.data r.value),
       List.replicate
           (poll (fun i => (env.pollOptions i vaultId).length) 2 5).2
           (AggCall.depositOptions vaultId)
         ++ (generateWithdrawAllPayload env vaultId).2) := by
  have hb : (vaultId == "") = false := by
    simpa using hne
  simp [runMain, hv, ht, jsTruthy, hb, ha]

/-- Branch lemma: a withdraw request with a numeric amount reaches
generateWithdrawPayload with that amount. -/
theorem runMain_withdraw_num (env : Env) (req : Request) (vaultId : String)
    (q : Rat) (hv : req.vaultId = some vaultId) (hne : vaultId ≠ "")
    (ht : req.type = some "withdraw")
    (ha : req.amount.getD RawAmount.all = RawAmount.num q) :
    runMain env req =
      ((generateWithdrawPayload env vaultId q).1.map
        (fun r => AggPayload.mk req.wallet r.toAddr r.data r.value),
       List.replicate
           (poll (fun i => (env.pollOptions i vaultId).length) 2 5).2
           (AggCall.depositOptions vaultId)
         ++ (generateWithdrawPayload env vaultId q).2) := by
  have hb : (vaultId == "") = false := by
    simpa using hne
  simp [runMain, hv, ht, jsTruthy, hb, ha]

/-- Branch lemma: a missing or empty vaultId or type parameter fails at
parsing with no external call. -/
theorem runMain_missing (env : Env) (req : Request)
    (h : jsTruthy req.vaultId = false ∨ jsTruthy req.type = false) :
    runMain env req
      = (Except.error "Missing vaultId or type=? (deposit/withdraw)", []) := by
  rcases h with h | h <;> simp [runMain, h]

/-- Branch lemma: a present but unrecognized type parameter fails the type
check with no external call. -/
theorem runMain_bad_type (env : Env) (req : Request) (t : String)
    (hv : jsTruthy req.vaultId = true) (ht : req.type = some t)
    (htne : t ≠ "") (hd : t ≠ "deposit") (hw : t ≠ "withdraw") :
    runMain env req = (Except.error "Type must be deposit or withdraw", []) := by
  have hb : (t == "") = false := by simpa using htne
  have hbd : (t == "deposit") = false := by simpa using hd
  have hbw : (t == "withdraw") = false := by simpa using hw
  simp only [runMain, ht, Option.getD_some]
  rw [hv]
  simp [jsTruthy, htne, hd, hw]


/-- Branch evaluation: no withdraw options. -/
theorem genW_no_options (env : Env) (v : String) (a : Rat)
    (h : env.fetchWithdrawOptionsFor v = []) :
    generateWithdrawPayload env v a
      = (Except.error "No withdraw options available",
         [AggCall.withdrawOptions v]) := by
  simp [generateWithdrawPayload, h]

/-- Branch evaluation: options present but withdraw selection empty. -/
theorem genW_no_selection (env : Env) (v : String) (a : Rat)
    (hne : env.fetchWithdrawOptionsFor v ≠ [])
    (hsel : withdrawSelectedOption (env.fetchWithdrawOptionsFor v) = none) :
    generateWithdrawPayload env v a
      = (Except.error "No withdraw option found",
         [AggCall.withdrawOptions v]) := by
  simp [generateWithdrawPayload, hne, hsel]

/-- Branch evaluation: selection succeeded but the quote fetch was empty. -/
theorem genW_no_quotes (env : Env) (v : String) (a : Rat)
    (sel : TransactOption)
    (hne : env.fetchWithdrawOptionsFor v ≠ [])
    (hsel : withdrawSelectedOption (env.fetchWithdrawOptionsFor v) = some sel)
    (hq : env.fetchWithdrawQuotesFor [sel] [withdrawAmountSpecOf sel a] = []) :
    generateWithdrawPayload env v a
      = (Except.error "No withdraw quotes found",
         [AggCall.withdrawOptions v,
          AggCall.withdrawQuotes [sel] [withdrawAmountSpecOf sel a]]) := by
  simp [generateWithdrawPayload, hne, hsel, hq]

/-- Branch evaluation: the withdraw path succeeded. -/
theorem genW_ok (env : Env) (v : String) (a : Rat)
    (sel : TransactOption) (q : Quote) (qs : List Quote)
    (hne : env.fetchWithdrawOptionsFor v ≠ [])
    (hsel : withdrawSelectedOption (env.fetchWithdrawOptionsFor v) = some sel)
    (hq : env.fetchWithdrawQuotesFor [sel] [withdrawAmountSpecOf sel a]
      = q :: qs) :
    generateWithdrawPayload env v a
      = (Except.ok (env.dispatch (env.fetchWithdrawStep q).action),
         [AggCall.withdrawOptions v,
          AggCall.withdrawQuotes [sel] [withdrawAmountSpecOf sel a],
          AggCall.withdrawStep q,
          AggCall.dispatchAction (env.fetchWithdrawStep q).action]) := by
  simp [generateWithdrawPayload, hne, hsel, hq]

/-- Branch evaluation: no deposit options. -/
theorem genD_no_options (env : Env) (v : String) (a : Rat)
    (h : env.fetchDepositOptionsFor v = []) :
    generateDepositPayload env v a
      = (Except.error "No deposit options available",
         [AggCall.depositOptions v]) := by
  simp [generateDepositPayload, h]

/-- Branch evaluation: the deposit selection predicate threw. -/
theorem genD_selection_error (env : Env) (v : String) (a : Rat) (e : String)
    (hne : env.fetchDepositOptionsFor v ≠ [])
    (hsel : depositSelectedOption (env.fetchDepositOptionsFor v)
      = Except.error e) :
    generateDepositPayload env v a
      = (Except.error e, [AggCall.depositOptions v]) := by
  simp [generateDepositPayload, hne, hsel]

/-- Branch evaluation: options present but deposit selection empty. -/
theorem genD_no_selection (env : Env) (v : String) (a : Rat)
    (hne : env.fetchDepositOptionsFor v ≠ [])
    (hsel : depositSelectedOption (env.fetchDepositOptionsFor v)
      = Except.ok none) :
    generateDepositPayload env v a
      = (Except.error "No deposit option found",
         [AggCall.depositOptions v]) := by
  simp [generateDepositPayload, hne, hsel]

/-- Branch evaluation: selection succeeded but the quote fetch was empty. -/
theorem genD_no_quotes (env : Env) (v : String) (a : Rat)
    (sel : TransactOption)
    (hne : env.fetchDepositOptionsFor v ≠ [])
    (hsel : depositSelectedOption (env.fetchDepositOptionsFor v)
      = Except.ok (some sel))
    (hq : env.fetchDepositQuotesFor [sel] [AmountSpec.mk sel.inputs.head? a false]
      = []) :
    generateDepositPayload env v a
      = (Except.error "No deposit quotes found",
         [AggCall.depositOptions v,
          AggCall.depositQuotes [sel]
            [AmountSpec.mk sel.inputs.head? a false]]) := by
  simp [generateDepositPayload, hne, hsel, hq]

/-- Branch evaluation: the deposit path succeeded. -/
theorem genD_ok (env : Env) (v : String) (a : Rat)
    (sel : TransactOption) (q : Quote) (qs : List Quote)
    (hne : env.fetchDepositOptionsFor v ≠ [])
    (hsel : depositSelectedOption (env.fetchDepositOptionsFor v)
      = Except.ok (some sel))
    (hq : env.fetchDepositQuotesFor [sel] [AmountSpec.mk sel.inputs.head? a false]
      = q :: qs) :
    generateDepositPayload env v a
      = (Except.ok (env.dispatch (env.fetchDepositStep q).action),
         [AggCall.depositOptions v,
          AggCall.depositQuotes [sel] [AmountSpec.mk sel.inputs.head? a false],
          AggCall.depositStep q,
          AggCall.dispatchAction (env.fetchDepositStep q).action]) := by
  simp [generateDepositPayload, hne, hsel, hq]


/-- Every withdraw generation starts by fetching the withdraw options. -/
theorem withdrawOptions_mem_trace (env : Env) (v : String) (a : Rat) :
    AggCall.withdrawOptions v ∈ (generateWithdrawPayload env v a).2 := by
  by_cases hne : env.fetchWithdrawOptionsFor v = []
  · rw [genW_no_options env v a hne]; simp
  · cases hsel : withdrawSelectedOption (env.fetchWithdrawOptionsFor v) with
    | none => rw [genW_no_selection env v a hne hsel]; simp
    | some sel =>
      cases hq : env.fetchWithdrawQuotesFor [sel]
          [withdrawAmountSpecOf sel a] with
      | nil => rw [genW_no_quotes env v a sel hne hsel hq]; simp
      | cons q qs => rw [genW_ok env v a sel q qs hne hsel hq]; simp

/-- Trace inversion for withdraw: a quote fetch recorded in the trace was
made with the selected option as the only option and a single amount spec
built by withdrawAmountSpecOf. -/
theorem withdrawQuotes_trace_inv (env : Env) (v : String) (a : Rat)
    (opts : List TransactOption) (specs : List AmountSpec)
    (hmem : AggCall.withdrawQuotes opts specs
      ∈ (generateWithdrawPayload env v a).2) :
    ∃ sel, withdrawSelectedOption (env.fetchWithdrawOptionsFor v) = some sel
      ∧ opts = [sel] ∧ specs = [withdrawAmountSpecOf sel a] := by
  by_cases hne : env.fetchWithdrawOptionsFor v = []
  · rw [genW_no_options env v a hne] at hmem; simp at hmem
  · cases hsel : withdrawSelectedOption (env.fetchWithdrawOptionsFor v) with
    | none => rw [genW_no_selection env v a hne hsel] at hmem; simp at hmem
    | some sel =>
      cases hq : env.fetchWithdrawQuotesFor [sel]
          [withdrawAmountSpecOf sel a] with
      | nil =>
        rw [genW_no_quotes env v a sel hne hsel hq] at hmem
        simp at hmem
        exact ⟨sel, rfl, hmem.1, hmem.2⟩
      | cons q qs =>
        rw [genW_ok env v a sel q qs hne hsel hq] at hmem
        simp at hmem
        exact ⟨sel, rfl, hmem.1, hmem.2⟩

/-- Trace inversion for withdraw: a step fetch recorded in the trace is for
the head of the quotes returned by the recorded quote call. -/
theorem withdrawStep_trace_inv (env : Env) (v : String) (a : Rat) (q : Quote)
    (hmem : AggCall.withdrawStep q ∈ (generateWithdrawPayload env v a).2) :
    ∃ sel,
      withdrawSelectedOption (env.fetchWithdrawOptionsFor v) = some sel
      ∧ AggCall.withdrawQuotes [sel] [withdrawAmountSpecOf sel a]
          ∈ (generateWithdrawPayload env v a).2
      ∧ (env.fetchWithdrawQuotesFor [sel] [withdrawAmountSpecOf sel a]).head?
          = some q := by
  by_cases hne : env.fetchWithdrawOptionsFor v = []
  · rw [genW_no_options env v a hne] at hmem; simp at hmem
  · cases hsel : withdrawSelectedOption (env.fetchWithdrawOptionsFor v) with
    | none => rw [genW_no_selection env v a hne hsel] at hmem; simp at hmem
    | some sel =>
      cases hq : env.fetchWithdrawQuotesFor [sel]
          [withdrawAmountSpecOf sel a] with
      | nil => rw [genW_no_quotes env v a sel hne hsel hq] at hmem; simp at hmem
      | cons q2 qs =>
        rw [genW_ok env v a sel q2 qs hne hsel hq] at hmem
        rw [genW_ok env v a sel q2 qs hne hsel hq]
        simp at hmem
        subst hmem
        exact ⟨sel, rfl, by simp, by rw [hq]; rfl⟩

/-- Trace inversion for deposit: a quote fetch recorded in the trace was
made with the selected option as the only option and a single amount spec
from its first input token with max false. -/
theorem depositQuotes_trace_inv (env : Env) (v : String) (a : Rat)
    (opts : List TransactOption) (specs : List AmountSpec)
    (hmem : AggCall.depositQuotes opts specs
      ∈ (generateDepositPayload env v a).2) :
    ∃ sel,
      depositSelectedOption (env.fetchDepositOptionsFor v)
        = Except.ok (some sel)
      ∧ opts = [sel] ∧ specs = [AmountSpec.mk sel.inputs.head? a false] := by
  by_cases hne : env.fetchDepositOptionsFor v = []
  · rw [genD_no_options env v a hne] at hmem; simp at hmem
  · cases hsel : depositSelectedOption (env.fetchDepositOptionsFor v) with
    | error e => rw [genD_selection_error env v a e hne hsel] at hmem; simp at hmem
    | ok found =>
      cases found with
      | none => rw [genD_no_selection env v a hne hsel] at hmem; simp at hmem
      | some sel =>
        cases hq : env.fetchDepositQuotesFor [sel]
            [AmountSpec.mk sel.inputs.head? a false] with
        | nil =>
          rw [genD_no_quotes env v a sel hne hsel hq] at hmem
          simp at hmem
          exact ⟨sel, rfl, hmem.1, hmem.2⟩
        | cons q qs =>
          rw [genD_ok env v a sel q qs hne hsel hq] at hmem
          simp at hmem
          exact ⟨sel, rfl, hmem.1, hmem.2⟩

/-- Trace inversion for deposit: a step fetch recorded in the trace is for
the head of the quotes returned by the recorded quote call. -/
theorem depositStep_trace_inv (env : Env) (v : String) (a : Rat) (q : Quote)
    (hmem : AggCall.depositStep q ∈ (generateDepositPayload env v a).2) :
    ∃ sel,
      depositSelectedOption (env.fetchDepositOptionsFor v)
        = Except.ok (some sel)
      ∧ AggCall.depositQuotes [sel] [AmountSpec.mk sel.inputs.head? a false]
          ∈ (generateDepositPayload env v a).2
      ∧ (env.fetchDepositQuotesFor [sel]
          [AmountSpec.mk sel.inputs.head? a false]).head? = some q := by
  by_cases hne : env.fetchDepositOptionsFor v = []
  · rw [genD_no_options env v a hne] at hmem; simp at hmem
  · cases hsel : depositSelectedOption (env.fetchDepositOptionsFor v) with
    | error e => rw [genD_selection_error env v a e hne hsel] at hmem; simp at hmem
    | ok found =>
      cases found with
      | none => rw [genD_no_selection env v a hne hsel] at hmem; simp at hmem
      | some sel =>
        cases hq : env.fetchDepositQuotesFor [sel]
            [AmountSpec.mk sel.inputs.head? a false] with
        | nil => rw [genD_no_quotes env v a sel hne hsel hq] at hmem; simp at hmem
        | cons q2 qs =>
          rw [genD_ok env v a sel q2 qs hne hsel hq] at hmem
          rw [genD_ok env v a sel q2 qs hne hsel hq]
          simp at hmem
          subst hmem
          exact ⟨sel, rfl, by simp, by rw [hq]; rfl⟩


/-- When every option carries at least one input token, the crashing find
of the source agrees with the total find? over the spec predicate. -/
theorem findFirstInputUSDC_eq (options : List TransactOption)
    (h : ∀ o ∈ options, o.inputs ≠ []) :
    findFirstInputUSDC options
      = Except.ok (options.find? firstInputIsUSDC) := by
  induction options with
  | nil => rfl
  | cons o os ih =>
    have ho : o.inputs ≠ [] := h o (List.mem_cons_self o os)
    cases hin : o.inputs with
    | nil => exact absurd hin ho
    | cons t ts =>
      by_cases ht : t.id = "USDC"
      · have hbe : (t.id == "USDC") = true := by simpa using ht
        simp [findFirstInputUSDC, hin, ht, List.find?, firstInputIsUSDC, hbe]
      · have hbe : (t.id == "USDC") = false := by simpa using ht
        simp [findFirstInputUSDC, hin, ht, List.find?, firstInputIsUSDC, hbe,
          ih (fun o2 ho2 => h o2 (List.mem_cons_of_mem o ho2))]

/-- When every option carries at least one input token, deposit selection
does not throw and agrees with the spec policy. -/
theorem depositSelectedOption_eq_spec (options : List TransactOption)
    (h : ∀ o ∈ options, o.inputs ≠ []) :
    depositSelectedOption options
      = Except.ok (selectDepositOptionSpec options) := by
  rw [depositSelectedOption, findFirstInputUSDC_eq options h]
  rfl

/-- On a non-empty option list the spec deposit policy selects something. -/
theorem selectDepositOptionSpec_isSome (options : List TransactOption)
    (hne : options ≠ []) :
    ∃ o, selectDepositOptionSpec options = some o := by
  obtain ⟨o, ho, _⟩ := select_first_or_head firstInputIsUSDC options hne
  exact ⟨o, ho⟩

/-- The option selected by the spec deposit policy is a member of the
list. -/
theorem selectDepositOptionSpec_mem (options : List TransactOption)
    (o : TransactOption) (h : selectDepositOptionSpec options = some o) :
    o ∈ options := by
  unfold selectDepositOptionSpec at h
  cases hf : options.find? firstInputIsUSDC with
  | some x =>
    rw [hf] at h
    simp at h
    subst h
    exact List.mem_of_find?_eq_some hf
  | none =>
    rw [hf] at h
    simp at h
    exact List.mem_of_mem_head? h


/-- Claim C2: an eth_sendTransaction (value-transfer / write) request
against the read-only provider context (bare address, no signer) fails
immediately and deterministically with the signing-unavailable error and
performs zero node interactions for that request, while against the signing
context it signs and broadcasts through the node and returns the resulting
transaction hash. -/
theorem sendTransaction_requires_signer :
    ∀ (walletAddress : String) (chainId : Nat) (node : Node)
      (params : List String),
      requestReadOnly walletAddress chainId node "eth_sendTransaction" params
        = (Except.error "No signing available in data-only mode", [])
      ∧ requestSigning walletAddress chainId node "eth_sendTransaction" params
        = (Except.ok
             (RpcResult.str (node.sendTransactionHash (params.headD ""))),
           [NodeCall.sendTransaction (params.headD "")]) :=
  fun _ _ _ _ => ⟨rfl, rfl⟩

/-- Claim C5: the Readiness Poller stops on the first probe invocation whose
count reaches the minimum, or after maxAttempts attempts; in particular with
minimum 2, the probe sequence 0, 1, 2, 2 and maxAttempts 5 it stops after
exactly 3 probe invocations with a final count of 2. -/
theorem poller_stops_first_success :
    (∀ (probe : Nat → Nat) (minimum maxAttempts k : Nat),
        k < maxAttempts → minimum ≤ probe k →
        (∀ j, j < k → probe j < minimum) →
        poll probe minimum maxAttempts = (probe k, k + 1))
    ∧ (∀ (probe : Nat → Nat) (minimum maxAttempts : Nat),
        (∀ k, k < maxAttempts → probe k < minimum) →
        (poll probe minimum maxAttempts).2 = maxAttempts)
    ∧ poll (fun i => [0, 1, 2, 2].getD i 2) 2 5 = (2, 3) := by
  refine ⟨?_, ?_, by decide⟩
  · intro probe minimum maxAttempts k hk hs hb
    simpa using pollAux_first_success probe minimum maxAttempts 0 0 k hk
      (by simpa using hs) (by simpa using hb)
  · intro probe minimum maxAttempts hall
    simpa using pollAux_exhausts probe minimum maxAttempts 0 0
      (by simpa using hall)

/-- Witness for C5 at the concrete probe sequence of the claim. -/
theorem poller_stops_first_success_witness :
    poll (fun i => [0, 1, 2, 2].getD i 2) 2 5 = (2, 3) := by
  have h := poller_stops_first_success.1 (fun i => [0, 1, 2, 2].getD i 2)
    2 5 2 (by decide) (by decide) (by decide)
  simpa using h


/-- Claim C6: the AwaitingReadiness stage never hard-fails. The run result
is the same whatever the poll-time probe responses are (including a probe
that stays below the minimum for all attempts), and a run that passes
validation always proceeds to the option fetch, which does its own
empty-result check. -/
theorem readiness_never_hard_fails :
    (∀ (env : Env) (p p2 : Nat → String → List TransactOption)
        (req : Request),
        (runMain { env with pollOptions := p } req).1
          = (runMain { env with pollOptions := p2 } req).1)
    ∧ (∀ (env : Env) (req : Request) (vaultId : String),
        req.vaultId = some vaultId → vaultId ≠ "" →
        req.type = some "withdraw" →
        AggCall.withdrawOptions vaultId ∈ (runMain env req).2) := by
  constructor
  · intro env p p2 req
    exact (runMain_fst_pollOptions_irrel env p req).trans
      (runMain_fst_pollOptions_irrel env p2 req).symm
  · intro env req vaultId hv hne ht
    cases hra : req.amount.getD RawAmount.all with
    | all =>
      rw [runMain_withdraw_all env req vaultId hv hne ht hra]
      simp only [generateWithdrawAllPayload, List.mem_append]
      exact Or.inr (withdrawOptions_mem_trace env vaultId (-1))
    | num q =>
      rw [runMain_withdraw_num env req vaultId q hv hne ht hra]
      simp only [List.mem_append]
      exact Or.inr (withdrawOptions_mem_trace env vaultId q)

/-- Witness for C6 at a concrete run. -/
theorem readiness_never_hard_fails_witness :
    AggCall.withdrawOptions "v" ∈ (runMain envOk reqWAll).2 :=
  readiness_never_hard_fails.2 envOk reqWAll "v" rfl (by decide) rfl

/-- Claim C9: every terminated run has ready = true; a successful run has
no error and carries the payload, a failed run carries the message and no
payload. -/
theorem done_always_ready :
    ∀ (env : Env) (req : Request),
      (mainRun env req).1.ready = true
      ∧ (∀ p, (runMain env req).1 = Except.ok p →
          (mainRun env req).1.error = none
          ∧ (mainRun env req).1.aggregatorPayload = some p)
      ∧ (∀ m, (runMain env req).1 = Except.error m →
          (mainRun env req).1.error = some m
          ∧ (mainRun env req).1.aggregatorPayload = none) := by
  intro env req
  refine ⟨?_, ?_, ?_⟩
  · cases h : (runMain env req).1 <;> simp [mainRun, h]
  · intro p hp; simp [mainRun, hp]
  · intro m hm; simp [mainRun, hm]

/-- Witness for C9 covering the success and the failure terminal. -/
theorem done_always_ready_witness :
    (mainRun envOk reqDep).1.ready = true
    ∧ (mainRun envOk reqDep).1.error = none
    ∧ (mainRun envOk reqDep).1.aggregatorPayload
        = some (AggPayload.mk none "0xabc" "0xdef" "0")
    ∧ (mainRun envOk reqNoVault).1.error
        = some "Missing vaultId or type=? (deposit/withdraw)"
    ∧ (mainRun envOk reqNoVault).1.aggregatorPayload = none := by
  have h1 := done_always_ready envOk reqDep
  have h2 := done_always_ready envOk reqNoVault
  have hok : (runMain envOk reqDep).1
      = Except.ok (AggPayload.mk none "0xabc" "0xdef" "0") := by decide
  have herr : (runMain envOk reqNoVault).1
      = Except.error "Missing vaultId or type=? (deposit/withdraw)" := by
    decide
  exact ⟨h1.1, (h1.2.1 _ hok).1, (h1.2.1 _ hok).2,
    (h2.2.2 _ herr).1, (h2.2.2 _ herr).2⟩

/-- Claim C8: a request whose type parameter is missing, empty or not one of
deposit and withdraw terminates with ready true, a descriptive error message
and no payload, and makes no aggregator call at all. -/
theorem invalid_type_rejected :
    ∀ (env : Env) (req : Request),
      (req.type = none ∨ req.type = some ""
        ∨ ∀ t, req.type = some t → t ≠ "deposit" ∧ t ≠ "withdraw") →
      ∃ msg, runMain env req = (Except.error msg, [])
        ∧ (msg = "Type must be deposit or withdraw"
           ∨ msg = "Missing vaultId or type=? (deposit/withdraw)")
        ∧ (mainRun env req).1 = PipelineResult.mk true (some msg) none := by
  intro env req h
  by_cases hv : jsTruthy req.vaultId = true
  case neg =>
    have hv2 : jsTruthy req.vaultId = false := by simpa using hv
    have he := runMain_missing env req (Or.inl hv2)
    exact ⟨_, he, Or.inr rfl, by simp [mainRun, he]⟩
  case pos =>
    cases htype : req.type with
    | none =>
      have he := runMain_missing env req (Or.inr (by simp [jsTruthy, htype]))
      exact ⟨_, he, Or.inr rfl, by simp [mainRun, he]⟩
    | some t =>
      by_cases hte : t = ""
      · subst hte
        have he := runMain_missing env req (Or.inr (by simp [jsTruthy, htype]))
        exact ⟨_, he, Or.inr rfl, by simp [mainRun, he]⟩
      · rcases h with h | h | h
        · rw [htype] at h; simp at h
        · rw [htype] at h
          simp at h
          exact absurd h hte
        · obtain ⟨hd, hw⟩ := h t htype
          have he := runMain_bad_type env req t hv htype hte hd hw
          exact ⟨_, he, Or.inl rfl, by simp [mainRun, he]⟩

/-- Witness for C8 at a concrete unrecognized type. -/
theorem invalid_type_rejected_witness :
    ∃ msg, runMain envOk reqBadType = (Except.error msg, [])
      ∧ (msg = "Type must be deposit or withdraw"
         ∨ msg = "Missing vaultId or type=? (deposit/withdraw)")
      ∧ (mainRun envOk reqBadType).1
          = PipelineResult.mk true (some msg) none :=
  invalid_type_rejected envOk reqBadType
    (Or.inr (Or.inr (fun t ht => by
      simp only [reqBadType] at ht
      injection ht with ht2
      subst ht2
      exact ⟨by decide, by decide⟩)))


/-- Claim C3: every amount spec reaching the withdraw quote fetch has a
strictly positive amount; when the requested amount is numerically ≤ 0 the
spec has isMax true and the positive placeholder amount, and a withdraw-all
request (literal all or defaulted amount) end to end produces only isMax
specs with the placeholder amount. -/
theorem withdraw_amount_spec_positive :
    (∀ (env : Env) (vaultId : String) (q : Rat)
        (opts : List TransactOption) (specs : List AmountSpec),
        AggCall.withdrawQuotes opts specs
          ∈ (generateWithdrawPayload env vaultId q).2 →
        ∀ s ∈ specs,
          0 < s.amount
          ∧ (q ≤ 0 → s.max = true ∧ s.amount = (1 : Rat) / 1000000))
    ∧ (∀ (env : Env) (req : Request) (vaultId : String),
        req.vaultId = some vaultId → vaultId ≠ "" →
        req.type = some "withdraw" →
        req.amount.getD RawAmount.all = RawAmount.all →
        ∀ (opts : List TransactOption) (specs : List AmountSpec),
          AggCall.withdrawQuotes opts specs ∈ (runMain env req).2 →
          ∀ s ∈ specs, s.max = true ∧ s.amount = (1 : Rat) / 1000000) := by
  constructor
  · intro env v q opts specs hmem s hs
    obtain ⟨sel, hsel, hopts, hspecs⟩ :=
      withdrawQuotes_trace_inv env v q opts specs hmem
    subst hspecs
    simp at hs
    subst hs
    by_cases hq : q ≤ 0
    · refine ⟨?_, fun _ => ⟨?_, ?_⟩⟩ <;> simp [withdrawAmountSpecOf, hq]
    · have hq2 : 0 < q := lt_of_not_le hq
      refine ⟨?_, fun hc => absurd hc hq⟩
      simp [withdrawAmountSpecOf, hq, hq2]
  · intro env req v hv hne ht ha opts specs hmem s hs
    rw [runMain_withdraw_all env req v hv hne ht ha] at hmem
    simp only [List.mem_append] at hmem
    rcases hmem with hmem | hmem
    · exact absurd (List.eq_of_mem_replicate hmem) (by simp)
    · simp only [generateWithdrawAllPayload] at hmem
      obtain ⟨sel, hsel, hopts, hspecs⟩ :=
        withdrawQuotes_trace_inv env v (-1) opts specs hmem
      subst hspecs
      simp at hs
      subst hs
      constructor <;> simp [withdrawAmountSpecOf]

/-- Witness for C3 at concrete negative and withdraw-all runs. -/
theorem withdraw_amount_spec_positive_witness :
    (0 < (withdrawAmountSpecOf optU (-1)).amount
      ∧ ((-1 : Rat) ≤ 0 → (withdrawAmountSpecOf optU (-1)).max = true
          ∧ (withdrawAmountSpecOf optU (-1)).amount = (1 : Rat) / 1000000))
    ∧ ((withdrawAmountSpecOf optU (-1)).max = true
      ∧ (withdrawAmountSpecOf optU (-1)).amount = (1 : Rat) / 1000000) := by
  have hgen := genW_ok envOk "v" (-1) optU (Quote.mk 2) [] (by decide)
    (by decide) rfl
  have hmem : AggCall.withdrawQuotes [optU] [withdrawAmountSpecOf optU (-1)]
      ∈ (generateWithdrawPayload envOk "v" (-1)).2 := by
    rw [hgen]; simp
  have hmem2 : AggCall.withdrawQuotes [optU] [withdrawAmountSpecOf optU (-1)]
      ∈ (runMain envOk reqWAll).2 := by
    rw [runMain_withdraw_all envOk reqWAll "v" rfl (by decide) rfl rfl]
    simp only [generateWithdrawAllPayload, List.mem_append]
    exact Or.inr hmem
  constructor
  · exact withdraw_amount_spec_positive.1 envOk "v" (-1) [optU]
      [withdrawAmountSpecOf optU (-1)] hmem
      (withdrawAmountSpecOf optU (-1)) (by simp)
  · exact withdraw_amount_spec_positive.2 envOk reqWAll "v" rfl (by decide)
      rfl rfl [optU] [withdrawAmountSpecOf optU (-1)] hmem2
      (withdrawAmountSpecOf optU (-1)) (by simp)

/-- Claim C7: an empty option listing terminates the run with the
no-options failure, and an empty quote fetch terminates it with the
no-quotes failure; the recorded trace is exactly the calls made up to the
failing one, so neither failure is retried. -/
theorem empty_options_quotes_terminal :
    (∀ (env : Env) (vaultId : String) (a : Rat),
        env.fetchDepositOptionsFor vaultId = [] →
        generateDepositPayload env vaultId a
          = (Except.error "No deposit options available",
             [AggCall.depositOptions vaultId]))
    ∧ (∀ (env : Env) (vaultId : String) (a : Rat),
        env.fetchWithdrawOptionsFor vaultId = [] →
        generateWithdrawPayload env vaultId a
          = (Except.error "No withdraw options available",
             [AggCall.withdrawOptions vaultId]))
    ∧ (∀ (env : Env) (vaultId : String) (a : Rat)
        (opts : List TransactOption) (specs : List AmountSpec),
        AggCall.depositQuotes opts specs
          ∈ (generateDepositPayload env vaultId a).2 →
        env.fetchDepositQuotesFor opts specs = [] →
        generateDepositPayload env vaultId a
          = (Except.error "No deposit quotes found",
             [AggCall.depositOptions vaultId,
              AggCall.depositQuotes opts specs]))
    ∧ (∀ (env : Env) (vaultId : String) (a : Rat)
        (opts : List TransactOption) (specs : List AmountSpec),
        AggCall.withdrawQuotes opts specs
          ∈ (generateWithdrawPayload env vaultId a).2 →
        env.fetchWithdrawQuotesFor opts specs = [] →
        generateWithdrawPayload env vaultId a
          = (Except.error "No withdraw quotes found",
             [AggCall.withdrawOptions vaultId,
              AggCall.withdrawQuotes opts specs])) := by
  refine ⟨genD_no_options, genW_no_options, ?_, ?_⟩
  · intro env v a opts specs hmem hq
    obtain ⟨sel, hsel, hopts, hspecs⟩ :=
      depositQuotes_trace_inv env v a opts specs hmem
    subst hopts
    subst hspecs
    have hne : env.fetchDepositOptionsFor v ≠ [] := by
      intro contra
      rw [contra] at hsel
      simp [depositSelectedOption, findFirstInputUSDC, Except.map] at hsel
    exact genD_no_quotes env v a sel hne hsel hq
  · intro env v a opts specs hmem hq
    obtain ⟨sel, hsel, hopts, hspecs⟩ :=
      withdrawQuotes_trace_inv env v a opts specs hmem
    subst hopts
    subst hspecs
    have hne : env.fetchWithdrawOptionsFor v ≠ [] := by
      intro contra
      rw [contra] at hsel
      simp [withdrawSelectedOption] at hsel
    exact genW_no_quotes env v a sel hne hsel hq

/-- Witness for C7 at concrete empty-options and empty-quotes
collaborators. -/
theorem empty_options_quotes_terminal_witness :
    generateDepositPayload envNoOptions "v" 1
      = (Except.error "No deposit options available",
         [AggCall.depositOptions "v"])
    ∧ generateWithdrawPayload envNoOptions "v" 1
      = (Except.error "No withdraw options available",
         [AggCall.withdrawOptions "v"])
    ∧ generateDepositPayload envNoQuotes "v" 1
      = (Except.error "No deposit quotes found",
         [AggCall.depositOptions "v",
          AggCall.depositQuotes [optU] [AmountSpec.mk optU.inputs.head? 1 false]])
    ∧ generateWithdrawPayload envNoQuotes "v" 1
      = (Except.error "No withdraw quotes found",
         [AggCall.withdrawOptions "v",
          AggCall.withdrawQuotes [optU] [withdrawAmountSpecOf optU 1]]) :=
  ⟨empty_options_quotes_terminal.1 envNoOptions "v" 1 rfl,
   empty_options_quotes_terminal.2.1 envNoOptions "v" 1 rfl,
   empty_options_quotes_terminal.2.2.1 envNoQuotes "v" 1 [optU]
     [AmountSpec.mk optU.inputs.head? 1 false]
     (by rw [genD_no_quotes envNoQuotes "v" 1 optU (by decide) (by decide) rfl]
         simp) rfl,
   empty_options_quotes_terminal.2.2.2 envNoQuotes "v" 1 [optU]
     [withdrawAmountSpecOf optU 1]
     (by rw [genW_no_quotes envNoQuotes "v" 1 optU (by decide) (by decide) rfl]
         simp) rfl⟩

/-- Claim C10: the single amount spec passed to the withdraw quote fetch
takes its token from the selected option's first input token, even though
the option was selected by its first wanted-output token; no spec is built
from the wanted outputs. -/
theorem withdraw_spec_uses_input_token :
    ∀ (env : Env) (vaultId : String) (q : Rat)
      (opts : List TransactOption) (specs : List AmountSpec),
      AggCall.withdrawQuotes opts specs
        ∈ (generateWithdrawPayload env vaultId q).2 →
      ∃ sel,
        withdrawSelectedOption (env.fetchWithdrawOptionsFor vaultId)
          = some sel
        ∧ opts = [sel]
        ∧ ∃ s, specs = [s] ∧ s.token = sel.inputs.head? := by
  intro env v q opts specs hmem
  obtain ⟨sel, hsel, hopts, hspecs⟩ :=
    withdrawQuotes_trace_inv env v q opts specs hmem
  exact ⟨sel, hsel, hopts, withdrawAmountSpecOf sel q, hspecs, rfl⟩

/-- Witness for C10 at a concrete withdraw run. -/
theorem withdraw_spec_uses_input_token_witness :
    ∃ sel,
      withdrawSelectedOption (envOk.fetchWithdrawOptionsFor "v") = some sel
      ∧ [optU] = [sel]
      ∧ ∃ s, [withdrawAmountSpecOf optU 1] = [s]
          ∧ s.token = sel.inputs.head? :=
  withdraw_spec_uses_input_token envOk "v" 1 [optU]
    [withdrawAmountSpecOf optU 1]
    (by rw [genW_ok envOk "v" 1 optU (Quote.mk 2) [] (by decide) (by decide) rfl]
        simp)


/-- When the aggregator returns a non-empty option list whose options all
carry an input token and never returns an empty quote list, the deposit
generation succeeds with the dispatch result. -/
theorem generateDepositPayload_ok_of (env : Env) (v : String) (a : Rat)
    (ho : env.fetchDepositOptionsFor v ≠ [])
    (hi : ∀ o ∈ env.fetchDepositOptionsFor v, o.inputs ≠ [])
    (hq : ∀ opts specs, env.fetchDepositQuotesFor opts specs ≠ []) :
    ∃ act, (generateDepositPayload env v a).1 = Except.ok (env.dispatch act) := by
  obtain ⟨sel, hsel0⟩ :=
    selectDepositOptionSpec_isSome (env.fetchDepositOptionsFor v) ho
  have hsel : depositSelectedOption (env.fetchDepositOptionsFor v)
      = Except.ok (some sel) := by
    rw [depositSelectedOption_eq_spec _ hi, hsel0]
  cases hqt : env.fetchDepositQuotesFor [sel]
      [AmountSpec.mk sel.inputs.head? a false] with
  | nil => exact absurd hqt (hq _ _)
  | cons q qs =>
    exact ⟨(env.fetchDepositStep q).action,
      by rw [genD_ok env v a sel q qs ho hsel hqt]⟩

/-- Claim C1 (amended): for every well-formed deposit request for which the
aggregator returns at least one option, each returned option carries at
least one input token, every quote fetch returns at least one quote, and
the dispatched step resolves to a payload with non-empty to and data, the
run reaches the success terminal state and the payload to and data fields
are non-empty. -/
theorem deposit_pipeline_success :
    ∀ (env : Env) (req : Request) (vaultId : String),
      req.vaultId = some vaultId → vaultId ≠ "" →
      req.type = some "deposit" →
      env.fetchDepositOptionsFor vaultId ≠ [] →
      (∀ o ∈ env.fetchDepositOptionsFor vaultId, o.inputs ≠ []) →
      (∀ opts specs, env.fetchDepositQuotesFor opts specs ≠ []) →
      (∀ act, (env.dispatch act).toAddr ≠ "" ∧ (env.dispatch act).data ≠ "") →
      ∃ p, (mainRun env req).1 = PipelineResult.mk true none (some p)
        ∧ p.toAddr ≠ "" ∧ p.data ≠ "" := by
  intro env req vaultId hv hne ht ho hi hq hd
  obtain ⟨act, hok⟩ := generateDepositPayload_ok_of env vaultId
    (depositAmountOf (req.amount.getD RawAmount.all)) ho hi hq
  have hrm : (runMain env req).1
      = Except.ok (AggPayload.mk req.wallet (env.dispatch act).toAddr
          (env.dispatch act).data (env.dispatch act).value) := by
    rw [runMain_deposit env req vaultId hv hne ht]
    simp [hok, Except.map]
  refine ⟨AggPayload.mk req.wallet (env.dispatch act).toAddr
    (env.dispatch act).data (env.dispatch act).value, ?_,
    (hd act).1, (hd act).2⟩
  simp [mainRun, hrm]

/-- Witness for C1 (amended) at a concrete well-behaved collaborator. -/
theorem deposit_pipeline_success_witness :
    ∃ p, (mainRun envOk reqDep).1 = PipelineResult.mk true none (some p)
      ∧ p.toAddr ≠ "" ∧ p.data ≠ "" :=
  deposit_pipeline_success envOk reqDep "v" rfl (by decide) rfl (by decide)
    (by decide) (fun _ _ => by simp [envOk]) (fun _ => ⟨by simp [envOk], by simp [envOk]⟩)

/-- Counterexample for C1 as frozen: with at least one option and quotes
always available, an option carrying no input token makes the run fail with
the selection TypeError instead of succeeding, and a dispatch resolving to
an empty to field yields a success whose payload to is empty. -/
theorem deposit_pipeline_success_cex :
    ((mainRun envBadInputs reqDep).1
        = PipelineResult.mk true
            (some "Cannot read properties of undefined (reading id)") none
      ∧ envBadInputs.fetchDepositOptionsFor "v" ≠ []
      ∧ (∀ opts specs, envBadInputs.fetchDepositQuotesFor opts specs ≠ []))
    ∧ ∃ p, (mainRun envBadDispatch reqDep).1
          = PipelineResult.mk true none (some p)
        ∧ p.toAddr = "" :=
  ⟨⟨by decide, by decide, fun _ _ => by simp [envBadInputs, envOk]⟩,
   AggPayload.mk none "" "" "0", by decide, rfl⟩

/-- Counterexample for C4 as frozen: on the non-empty option list whose
first option carries no input token and whose second matches the preferred
token, the source deposit selection throws the TypeError instead of
returning the matching option that the stated policy selects. -/
theorem selection_policy_cex :
    depositSelectedOption [optE, optU]
      = Except.error "Cannot read properties of undefined (reading id)"
    ∧ selectDepositOptionSpec [optE, optU] = some optU
    ∧ (Except.error "Cannot read properties of undefined (reading id)"
        : Except String (Option TransactOption)) ≠ Except.ok (some optU) :=
  ⟨by decide, by decide, by decide⟩

/-- Claim C4 (amended): when every option carries an input token, deposit
selection returns the first option whose first input token is the preferred
token, falling back to the first option when none matches (and without that
proviso the selection predicate can throw); withdraw selection applies the
same first-match-else-first policy keyed on the first wanted-output token
with no proviso; the quote used for the step fetch is always the head of
the quote list the aggregator returned. -/
theorem selection_policy :
    (∀ (options : List TransactOption),
        (∀ o ∈ options, o.inputs ≠ []) →
        depositSelectedOption options
          = Except.ok (selectDepositOptionSpec options))
    ∧ (∀ (options : List TransactOption), options ≠ [] →
        ∃ o, selectDepositOptionSpec options = some o
          ∧ ((firstInputIsUSDC o = true
                ∧ ∃ pre post, options = pre ++ o :: post
                  ∧ ∀ o2 ∈ pre, firstInputIsUSDC o2 = false)
             ∨ ((∀ o2 ∈ options, firstInputIsUSDC o2 = false)
                ∧ options.head? = some o)))
    ∧ (∀ (options : List TransactOption), options ≠ [] →
        ∃ o, withdrawSelectedOption options = some o
          ∧ ((firstWantedOutputIsUSDC o = true
                ∧ ∃ pre post, options = pre ++ o :: post
                  ∧ ∀ o2 ∈ pre, firstWantedOutputIsUSDC o2 = false)
             ∨ ((∀ o2 ∈ options, firstWantedOutputIsUSDC o2 = false)
                ∧ options.head? = some o)))
    ∧ (∀ (env : Env) (vaultId : String) (a : Rat) (q : Quote),
        AggCall.depositStep q ∈ (generateDepositPayload env vaultId a).2 →
        ∃ opts specs,
          AggCall.depositQuotes opts specs
            ∈ (generateDepositPayload env vaultId a).2
          ∧ (env.fetchDepositQuotesFor opts specs).head? = some q)
    ∧ (∀ (env : Env) (vaultId : String) (a : Rat) (q : Quote),
        AggCall.withdrawStep q ∈ (generateWithdrawPayload env vaultId a).2 →
        ∃ opts specs,
          AggCall.withdrawQuotes opts specs
            ∈ (generateWithdrawPayload env vaultId a).2
          ∧ (env.fetchWithdrawQuotesFor opts specs).head? = some q) := by
  refine ⟨depositSelectedOption_eq_spec, ?_, ?_, ?_, ?_⟩
  · intro options hne
    exact select_first_or_head firstInputIsUSDC options hne
  · intro options hne
    exact select_first_or_head firstWantedOutputIsUSDC options hne
  · intro env v a q hmem
    obtain ⟨sel, _, hq1, hq2⟩ := depositStep_trace_inv env v a q hmem
    exact ⟨[sel], _, hq1, hq2⟩
  · intro env v a q hmem
    obtain ⟨sel, _, hq1, hq2⟩ := withdrawStep_trace_inv env v a q hmem
    exact ⟨[sel], _, hq1, hq2⟩

/-- Witness for C4 (amended) at concrete option lists and a concrete
run. -/
theorem selection_policy_witness :
    depositSelectedOption [optD, optU]
      = Except.ok (selectDepositOptionSpec [optD, optU])
    ∧ (∃ o, selectDepositOptionSpec [optD, optU] = some o
        ∧ ((firstInputIsUSDC o = true
              ∧ ∃ pre post, [optD, optU] = pre ++ o :: post
                ∧ ∀ o2 ∈ pre, firstInputIsUSDC o2 = false)
           ∨ ((∀ o2 ∈ [optD, optU], firstInputIsUSDC o2 = false)
              ∧ [optD, optU].head? = some o)))
    ∧ (∃ o, withdrawSelectedOption [optD, optU] = some o
        ∧ ((firstWantedOutputIsUSDC o = true
              ∧ ∃ pre post, [optD, optU] = pre ++ o :: post
                ∧ ∀ o2 ∈ pre, firstWantedOutputIsUSDC o2 = false)
           ∨ ((∀ o2 ∈ [optD, optU], firstWantedOutputIsUSDC o2 = false)
              ∧ [optD, optU].head? = some o)))
    ∧ (∃ opts specs,
        AggCall.depositQuotes opts specs
          ∈ (generateDepositPayload envOk "v" 1).2
        ∧ (envOk.fetchDepositQuotesFor opts specs).head? = some (Quote.mk 1)) := by
  refine ⟨selection_policy.1 [optD, optU] (by decide),
    selection_policy.2.1 [optD, optU] (by decide),
    selection_policy.2.2.1 [optD, optU] (by decide),
    selection_policy.2.2.2.1 envOk "v" 1 (Quote.mk 1) ?_⟩
  rw [genD_ok envOk "v" 1 optU (Quote.mk 1) [] (by decide) (by decide) rfl]
  simp

end SLBeefy
